import Mathlib

/-!
Verification of the casino-games semantic search service

A shallow embedding of the ranking / fusion / caching pipeline of the
`buscador_semantico_juegos_casino` repository, together with theorems that
settle the specification claims about it.

Conventions of the embedding:
* JavaScript strings are Lean `String`s; the JS falsiness of the empty
  string (`undefined` and `""` behave identically in every use site that we
  model) is rendered by treating `""` as the absent value.
* JS numbers that hold relevance scores and boosts are rational numbers `ℚ`
  (every score in the source is built from integer increments and the
  literal boost `1.2 = 6/5`, so ℚ is exact).
* `Array.prototype.sort` with a consistent comparator is, per the ECMAScript
  specification, a stable sort; it is rendered as `List.insertionSort` with
  the corresponding total preorder (Mathlib's insertion sort is stable).
* Asynchronous fallible collaborators (network calls) are functions into
  `Except Unit _`; `.error` is a rejected promise / thrown exception.
* The file-system cache directory is an association list from file name to
  file content, in directory-listing order.
-/

namespace CasinoSearch

/-! ## JavaScript string primitives, modelled on `List Char` -/

/-- Substring test used for `needle.isPrefixOf`-style scans: true iff
`needle` occurs contiguously inside the second list.  Models
`String.prototype.includes`. -/
def charsContains (needle : List Char) : List Char → Bool
  | [] => needle.isEmpty
  | c :: t => needle.isPrefixOf (c :: t) || charsContains needle t

/-- Model of `s.includes(sub)` of JavaScript. -/
def jsIncludes (s sub : String) : Bool := charsContains sub.data s.data

/-- Model of `s.startsWith(sub)` of JavaScript. -/
def jsStartsWith (s sub : String) : Bool := sub.data.isPrefixOf s.data

/-- Model of `s.endsWith(sub)` of JavaScript. -/
def jsEndsWith (s sub : String) : Bool := sub.data.isSuffixOf s.data

/-- Model of `s.toLowerCase()` (the source data is ASCII, where JS and `Char.toLower`
agree). -/
def jsToLower (s : String) : String := String.mk (s.data.map Char.toLower)

/-- Model of `s.trim()` of JavaScript (whitespace at both ends removed). -/
def jsTrim (s : String) : String :=
  String.mk (((s.data.dropWhile Char.isWhitespace).reverse.dropWhile Char.isWhitespace).reverse)

/-- Model of `a || b` of JavaScript on strings: `""` (like `undefined`) is falsy. -/
def jsOr (a b : String) : String := if a = "" then b else a

/-- Model of `x || 1` of JavaScript on numbers: `0` (like `undefined`) is falsy. -/
def orOne (x : ℚ) : ℚ := if x = 0 then 1 else x

/-- Model of `s.split(sep)` for a one-character separator, as used on `"#"` and `"/"`. -/
def splitOnChar (sep : Char) : List Char → List (List Char)
  | [] => [[]]
  | c :: t =>
    let r := splitOnChar sep t
    if c = sep then [] :: r
    else
      match r with
      | [] => [[c]]
      | h :: t2 => (c :: h) :: t2

/-! ## `generateId`: base64 of the UTF-8 bytes, stripped to alphanumerics -/

/-- The standard base64 alphabet. -/
def base64Chars : List Char :=
  "ABCDEFGHIJKLMNOPQRSTUVWXYZabcdefghijklmnopqrstuvwxyz0123456789+/".data

/-- The `n`-th base64 digit. -/
def b64c (n : Nat) : Char := base64Chars.getD n 'A'

/-- Standard base64 of a byte sequence (each input < 256), with `=` padding,
as produced by `Buffer.prototype.toString("base64")`. -/
def base64Encode : List Nat → List Char
  | [] => []
  | [a] => [b64c (a / 4), b64c (a % 4 * 16), '=', '=']
  | [a, b] => [b64c (a / 4), b64c (a % 4 * 16 + b / 16), b64c (b % 16 * 4), '=']
  | a :: b :: c :: rest =>
    b64c (a / 4) :: b64c (a % 4 * 16 + b / 16) :: b64c (b % 16 * 4 + c / 64) :: b64c (c % 64) ::
      base64Encode rest

/-- ASCII letter-or-digit test (the `[^a-zA-Z0-9]` strip). -/
def isAsciiAlnum (c : Char) : Bool :=
  decide (('a' ≤ c ∧ c ≤ 'z') ∨ ('A' ≤ c ∧ c ≤ 'Z') ∨ ('0' ≤ c ∧ c ≤ '9'))

/-- Model of `generateId` of `unifiedSearchService`:
`Buffer.from(text || "default").toString("base64").replace(/[^a-zA-Z0-9]/g, "").substring(0, 12)`. -/
def generateId (text : String) : String :=
  let t := if text = "" then "default" else text
  String.mk (((base64Encode (t.toUTF8.toList.map (fun u => u.toNat))).filter isAsciiAlnum).take 12)

/-! ## Candidate and result shapes -/

/-- A property value of an offline-dataset entry: `Object.values` of the JS
`properties` object sees strings, arrays of strings, or other values (which
contribute nothing to scoring). -/
inductive PropVal where
  | str (v : String)
  | arr (vs : List String)
  | other
deriving DecidableEq, Repr, Inhabited

/-- A search candidate / result object.  This is the dynamic JS result shape;
fields a given origin does not set keep their default (`""` / `0` / `[]`),
matching `undefined` under the falsiness convention above. -/
structure Candidate where
  id : String := ""
  uri : String := ""
  name : String := ""
  label : String := ""
  abstract : String := ""
  description : String := ""
  comment : String := ""
  thumbnail : String := ""
  type : String := ""
  category : String := ""
  language : String := ""
  source : String := ""
  preview : String := ""
  properties : List PropVal := []
  external_links : List String := []
  relevance : ℚ := 0
  sourceBoost : ℚ := 0
  resultType : String := ""
  displaySource : String := ""
  searchType : String := ""
deriving DecidableEq, Repr, Inhabited

/-- The `{ english, spanish, total, source, timestamp }` result envelope of the
external-knowledge adapter. -/
structure DbpediaResult where
  english : List Candidate := []
  spanish : List Candidate := []
  total : Nat := 0
  source : String := ""
  timestamp : Int := 0
deriving DecidableEq, Repr, Inhabited

namespace UnifiedSearchService

/-- Model of `calculateLocalRelevance` of `unifiedSearchService.js`: start from the
candidate's own relevance (`|| 1`), add +10 for an exact name match with the
query, else +5 for a substring match, +3 / +2 for description / abstract
substring matches. -/
def calculateLocalRelevance (result : Candidate) (queryLower : String) : ℚ :=
  let score := orOne result.relevance
  let score :=
    if result.name ≠ "" ∧ jsToLower result.name = queryLower then score + 10
    else if result.name ≠ "" ∧ jsIncludes (jsToLower result.name) queryLower then score + 5
    else score
  let score :=
    if result.description ≠ "" ∧ jsIncludes (jsToLower result.description) queryLower then
      score + 3
    else score
  let score :=
    if result.abstract ≠ "" ∧ jsIncludes (jsToLower result.abstract) queryLower then score + 2
    else score
  score

/-- Model of `calculateDbpediaRelevance` of `unifiedSearchService.js`: +8 exact label
match, else +4 substring; +2 each for description / abstract substring; +1 for
a thumbnail. -/
def calculateDbpediaRelevance (result : Candidate) (queryLower : String) : ℚ :=
  let score := orOne result.relevance
  let score :=
    if result.label ≠ "" ∧ jsToLower result.label = queryLower then score + 8
    else if result.label ≠ "" ∧ jsIncludes (jsToLower result.label) queryLower then score + 4
    else score
  let score :=
    if result.description ≠ "" ∧ jsIncludes (jsToLower result.description) queryLower then
      score + 2
    else score
  let score :=
    if result.abstract ≠ "" ∧ jsIncludes (jsToLower result.abstract) queryLower then score + 2
    else score
  let score := if result.thumbnail ≠ "" then score + 1 else score
  score

/-- Model of `normalizeName`: strip every character that is not a lowercase ASCII letter
or digit, then truncate to 20 characters.  (The subsequent `\s+` strip in the
source is a no-op: no whitespace survives the first strip.) -/
def normalizeName (name : String) : String :=
  String.mk ((name.data.filter fun c =>
    decide (('a' ≤ c ∧ c ≤ 'z') ∨ ('0' ≤ c ∧ c ≤ '9'))).take 20)

/-- The deduplication key of a candidate:
`normalizeName((result.name || result.label || "").toLowerCase())`. -/
def nameKey (c : Candidate) : String := normalizeName (jsToLower (jsOr c.name c.label))

/-- The score both the dedup tie-break and the final comparator use:
`(r.relevance || 1) * (r.sourceBoost || 1)`. -/
def rankScore (c : Candidate) : ℚ := orOne c.relevance * orOne c.sourceBoost

/-- One step of `removeDuplicates`: the `seenNames` set always holds exactly
the keys of `unique`, so the membership test plus `findIndex` amount to
locating the first entry with the colliding key; a strictly higher
`relevance × sourceBoost` replaces it in place, otherwise the candidate is
dropped; an unseen key is appended. -/
def dedupStep (unique : List Candidate) (result : Candidate) : List Candidate :=
  match unique.findIdx? (fun u => nameKey u == nameKey result) with
  | none => unique ++ [result]
  | some i =>
    if rankScore (unique.getD i default) < rankScore result then unique.set i result else unique

/-- Model of `removeDuplicates` of `unifiedSearchService.js`. -/
def removeDuplicates (results : List Candidate) : List Candidate :=
  results.foldl dedupStep []

/-- The recursive rendering of one `removeDuplicates` step: locate the first
entry with the colliding key and replace it when the newcomer's score is
strictly higher, otherwise drop the newcomer; append when the key is new.
`dedupStep_eq_dedupInsert` proves it equal to the indexed form. -/
def dedupInsert (result : Candidate) : List Candidate → List Candidate
  | [] => [result]
  | u :: us =>
    if nameKey u == nameKey result then
      if rankScore u < rankScore result then result :: us else u :: us
    else u :: dedupInsert result us

/-- Effect of one fold step on the sub-sequence of one key: the head of that
subsequence (the first entry with the key) is replaced exactly when the
newcomer's score is strictly higher. -/
def keepStep (cur : List Candidate) (c : Candidate) : List Candidate :=
  match cur with
  | [] => [c]
  | b :: bs => (if rankScore b < rankScore c then c else b) :: bs

/-- Annotation pushed onto each local candidate by `combineAndRankResults`. -/
def annotateLocal (queryLower : String) (c : Candidate) : Candidate :=
  { c with relevance := calculateLocalRelevance c queryLower
           sourceBoost := 6 / 5
           resultType := "local" }

/-- Annotation pushed onto each DBpedia candidate by `combineAndRankResults`
(`src` is `"DBpedia (EN)"` or `"DBpedia (ES)"`). -/
def annotateDbpedia (src : String) (queryLower : String) (c : Candidate) : Candidate :=
  { c with id := jsOr c.id (generateId (jsOr c.uri c.label))
           relevance := calculateDbpediaRelevance c queryLower
           sourceBoost := 1
           resultType := "dbpedia"
           displaySource := src
           searchType := "dbpedia" }

/-- The `allResults` array built by `combineAndRankResults`, in push order:
local candidates first, then external English, then external Spanish. -/
def allResults (localResults : List Candidate) (dbpediaResults : DbpediaResult)
    (query : String) : List Candidate :=
  let queryLower := jsToLower query
  localResults.map (annotateLocal queryLower)
    ++ dbpediaResults.english.map (annotateDbpedia "DBpedia (EN)" queryLower)
    ++ dbpediaResults.spanish.map (annotateDbpedia "DBpedia (ES)" queryLower)

/-- The comparator's preorder: `a` may precede `b` iff
`scoreB - scoreA ≤ 0`. -/
def scoreGE (a b : Candidate) : Prop := rankScore b ≤ rankScore a

instance : DecidableRel scoreGE :=
  fun a b => inferInstanceAs (Decidable (rankScore b ≤ rankScore a))

instance : IsTotal Candidate scoreGE := ⟨fun a b => le_total (rankScore b) (rankScore a)⟩

instance : IsTrans Candidate scoreGE := ⟨fun _ _ _ h1 h2 => le_trans h2 h1⟩

/-- Model of `combineAndRankResults`: annotate and concatenate the candidate lists,
deduplicate, then stable-sort descending by `relevance × sourceBoost`. -/
def combineAndRankResults (localResults : List Candidate) (dbpediaResults : DbpediaResult)
    (query : String) : List Candidate :=
  (removeDuplicates (allResults localResults dbpediaResults query)).insertionSort scoreGE

/-- Options of `UnifiedSearchService.search`, with the source's defaults. -/
structure SearchOptions where
  includeDbpedia : Bool := false
  maxResults : Nat := 20
  language : String := "auto"
  preferOffline : Bool := false
  mode : String := "hybrid"
deriving DecidableEq, Repr, Inhabited

/-- The `stats` object of a search response. -/
structure SearchStats where
  total : Nat
  localCount : Nat
  dbpedia : Nat
  maxRelevance : ℚ
  source : String
deriving DecidableEq, Repr, Inhabited

/-- One entry of the `sources` provenance array. -/
structure SourceInfo where
  name : String
  type : String
  count : Nat
  description : String
deriving DecidableEq, Repr, Inhabited

/-- The success envelope of `UnifiedSearchService.search`. -/
structure SearchResponse where
  success : Bool
  query : String
  mode : String
  results : List Candidate
  stats : SearchStats
  sources : List SourceInfo
deriving DecidableEq, Repr, Inhabited

/-- Model of `getSourceInfo` of `unifiedSearchService.js`. -/
def getSourceInfo (localResults : List Candidate) (dbpediaResults : DbpediaResult) :
    List SourceInfo :=
  (if 0 < localResults.length then
    [⟨"Ontología Local", "local", localResults.length,
      "Base de conocimiento específica de juegos de casino"⟩]
  else []) ++
  (if 0 < dbpediaResults.total then
    [⟨"DBpedia", "dbpedia", dbpediaResults.total,
      "Base de conocimiento global (" ++ jsOr dbpediaResults.source "cache" ++ ")"⟩]
  else [])

/-- Model of `searchLocal` of `unifiedSearchService.js`: delegate to the ontology
service (an abstract collaborator here; a thrown error yields `[]`) and tag
each result. -/
def searchLocal (ontologySearch : String → Except Unit (List Candidate))
    (query : String) : List Candidate :=
  match ontologySearch query with
  | .ok results =>
    results.map fun r => { r with searchType := "local", displaySource := "Ontología Local" }
  | .error _ => []

/-- The external result used when the external adapter is not consulted:
the literal `{ english: [], spanish: [], total: 0 }` (no `source` field). -/
def noDbpedia : DbpediaResult := { english := [], spanish := [], total := 0 }

/-- The local half of `search`: the ontology service is consulted only when
`mode` is `"local"` or `"hybrid"`. -/
def searchLocalResults (ontologySearch : String → Except Unit (List Candidate))
    (query : String) (options : SearchOptions) : List Candidate :=
  if options.mode = "local" ∨ options.mode = "hybrid" then searchLocal ontologySearch query
  else []

/-- The external half of `search`: the adapter is consulted only when
`includeDbpedia` is set and `mode` is `"dbpedia"` or `"hybrid"`; a rejection
is caught and replaced by the empty external result. -/
def searchDbpediaResults (dbpediaAdapter : String → Except Unit DbpediaResult)
    (query : String) (options : SearchOptions) : DbpediaResult :=
  if options.includeDbpedia ∧ (options.mode = "dbpedia" ∨ options.mode = "hybrid") then
    match dbpediaAdapter query with
    | .ok r => r
    | .error _ => noDbpedia
  else noDbpedia

/-- Model of `UnifiedSearchService.search`.  The ontology service and the external
adapter (`localDbpediaService.searchWithFallback`, to which the
`preferOffline` / `language` options are forwarded) are abstract
collaborators. -/
def search (ontologySearch : String → Except Unit (List Candidate))
    (dbpediaAdapter : String → Except Unit DbpediaResult)
    (query : String) (options : SearchOptions) : SearchResponse :=
  let localResults := searchLocalResults ontologySearch query options
  let dbpediaResults := searchDbpediaResults dbpediaAdapter query options
  let combinedResults := combineAndRankResults localResults dbpediaResults query
  let finalResults := combinedResults.take options.maxResults
  { success := true
    query := query
    mode := options.mode
    results := finalResults
    stats :=
      { total := finalResults.length
        localCount := localResults.length
        dbpedia := dbpediaResults.total
        maxRelevance := match finalResults with | [] => 0 | r :: _ => r.relevance
        source := jsOr dbpediaResults.source "unknown" }
    sources := getSourceInfo localResults dbpediaResults }

end UnifiedSearchService

namespace LocalDbpediaService

/-- Collapse every run of underscores to a single one (`replace(/_+/g, "_")`);
the Boolean records whether the previous character was an underscore. -/
def collapseUnderscoresAux : Bool → List Char → List Char
  | _, [] => []
  | prevU, c :: rest =>
    if c = '_' then
      if prevU then collapseUnderscoresAux true rest
      else '_' :: collapseUnderscoresAux true rest
    else c :: collapseUnderscoresAux false rest

/-- Collapse every run of underscores to a single one (`replace(/_+/g, "_")`). -/
def collapseUnderscores (l : List Char) : List Char := collapseUnderscoresAux false l

/-- Strip the (after collapsing, unique) leading and trailing underscore
(`replace(/^_|_$/g, "")`). -/
def stripEdgeUnderscores (l : List Char) : List Char :=
  let l1 := match l with | '_' :: rest => rest | x => x
  match l1.reverse with
  | '_' :: r => r.reverse
  | _ => l1

/-- Model of `generateCacheKey`: lowercase, map every character outside `[a-z0-9]` to
`_`, collapse underscore runs, strip edge underscores. -/
def generateCacheKey (searchTerm : String) : String :=
  let mapped := (jsToLower searchTerm).data.map fun c =>
    if ('a' ≤ c ∧ c ≤ 'z') ∨ ('0' ≤ c ∧ c ≤ '9') then c else '_'
  String.mk (stripEdgeUnderscores (collapseUnderscores mapped))

/-- An entry of the bundled offline dataset (`casino_games_dataset.json`). -/
structure DatasetEntry where
  id : String := ""
  uri : String := ""
  label : String := ""
  abstract : String := ""
  description : String := ""
  thumbnail : String := ""
  comment : String := ""
  type : String := ""
  category : String := ""
  language : String := ""
  properties : List PropVal := []
  external_links : List String := []
deriving DecidableEq, Repr, Inhabited

/-- Score contributed by one `Object.values(entry.properties)` value:
+1 per string (or string array element) containing the term. -/
def propScore (term : String) : PropVal → ℚ
  | .str v => if jsIncludes (jsToLower v) term then 1 else 0
  | .arr vs => ((vs.filter fun v => jsIncludes (jsToLower v) term).length : ℚ)
  | .other => 0

/-- Model of `calculateLocalRelevance` of `localDbpediaService.js` (dataset scoring):
label +10 (+5 more if it starts with the term), abstract +3, description +2,
+1 per matching property value, category +2. -/
def calculateLocalRelevance (entry : DatasetEntry) (searchTerm : String) : ℚ :=
  let term := jsToLower searchTerm
  let score : ℚ := 0
  let score :=
    if entry.label ≠ "" ∧ jsIncludes (jsToLower entry.label) term then
      if jsStartsWith (jsToLower entry.label) term then score + 10 + 5 else score + 10
    else score
  let score :=
    if entry.abstract ≠ "" ∧ jsIncludes (jsToLower entry.abstract) term then score + 3 else score
  let score :=
    if entry.description ≠ "" ∧ jsIncludes (jsToLower entry.description) term then score + 2
    else score
  let score := score + (entry.properties.map (propScore term)).sum
  let score :=
    if entry.category ≠ "" ∧ jsIncludes (jsToLower entry.category) term then score + 2 else score
  score

/-- Index of the last occurrence of `c` (`String.prototype.lastIndexOf`). -/
def lastIndexOfChar (c : Char) (l : List Char) : Option Nat :=
  (l.reverse.findIdx? (· == c)).map fun i => l.length - 1 - i

/-- Model of `generatePreview`: newline-to-space, trim, truncate to 150 characters at
the last space, append `"..."`. -/
def generatePreview (text : String) : String :=
  if text = "" then ""
  else
    let cleaned := jsTrim (String.mk (text.data.map fun c => if c = '\n' then ' ' else c))
    if cleaned.data.length ≤ 150 then cleaned
    else
      let truncated := cleaned.data.take 150
      match lastIndexOfChar ' ' truncated with
      | some p =>
        if 0 < p then String.mk (truncated.take p) ++ "..." else String.mk truncated ++ "..."
      | none => String.mk truncated ++ "..."

/-- Model of `formatLocalEntry`: project a dataset entry onto the result shape. -/
def formatLocalEntry (entry : DatasetEntry) : Candidate :=
  { id := entry.id
    uri := entry.uri
    label := entry.label
    abstract := jsOr entry.abstract entry.description
    description := entry.description
    thumbnail := entry.thumbnail
    comment := entry.comment
    type := entry.type
    category := entry.category
    language := jsOr entry.language "en"
    source := "Local Dataset"
    preview := generatePreview (jsOr entry.description entry.abstract)
    properties := entry.properties
    external_links := entry.external_links }

/-- The empty result (`getEmptyResult`). -/
def getEmptyResult (now : Int) : DbpediaResult :=
  { english := [], spanish := [], total := 0, source := "empty", timestamp := now }

/-- Descending-relevance preorder used by the adapter's
`(a, b) => b.relevance - a.relevance` sorts. -/
def relGE (a b : Candidate) : Prop := b.relevance ≤ a.relevance

instance : DecidableRel relGE :=
  fun a b => inferInstanceAs (Decidable (b.relevance ≤ a.relevance))

instance : IsTotal Candidate relGE := ⟨fun a b => le_total b.relevance a.relevance⟩

instance : IsTrans Candidate relGE := ⟨fun _ _ _ h1 h2 => le_trans h2 h1⟩

/-- Model of `searchLocal` of `localDbpediaService.js`: score every dataset entry,
keep the strictly positive ones, sort descending, split by language. -/
def searchLocal (dataset : Option (List DatasetEntry)) (now : Int)
    (searchTerm : String) : DbpediaResult :=
  match dataset with
  | none => getEmptyResult now
  | some entries =>
    let term := jsTrim (jsToLower searchTerm)
    let results := entries.filterMap fun e =>
      let score := calculateLocalRelevance e term
      if 0 < score then some { formatLocalEntry e with relevance := score, searchType := "local" }
      else none
    let results := results.insertionSort relGE
    { english := results.filter fun r => r.language == "en"
      spanish := results.filter fun r => r.language == "es"
      total := results.length
      source := "local-dataset"
      timestamp := now }

/-- A persisted cache file: either a well-formed entry (as written by
`cacheResults`) or unparseable JSON. -/
structure CacheEntry where
  searchTerm : String := ""
  results : DbpediaResult := {}
  timestamp : Int := 0
  expiry : Int := 0
deriving DecidableEq, Repr, Inhabited

/-- Content of a cache file. -/
inductive CacheFile where
  | valid (entry : CacheEntry)
  | corrupt
deriving DecidableEq, Repr, Inhabited

/-- The adapter's mutable state: loaded dataset (`none` when missing or
without entries), cache directory (file name to content, in listing order),
and the online flag. -/
structure ServiceState where
  localDataset : Option (List DatasetEntry) := none
  cache : List (String × CacheFile) := []
  isOnline : Bool := true
deriving DecidableEq, Repr, Inhabited

/-- Model of `fs.readFile`: `none` is a rejected read (no such file). -/
def readFile (cache : List (String × CacheFile)) (name : String) : Option CacheFile :=
  (cache.find? fun nf => nf.1 == name).map (·.2)

/-- Model of `fs.unlink`. -/
def unlinkFile (cache : List (String × CacheFile)) (name : String) :
    List (String × CacheFile) :=
  cache.filter fun nf => nf.1 != name

/-- Model of `fs.writeFile`: overwrite in place, or create. -/
def writeFile (cache : List (String × CacheFile)) (name : String) (f : CacheFile) :
    List (String × CacheFile) :=
  if cache.any fun nf => nf.1 == name then
    cache.map fun nf => if nf.1 == name then (name, f) else nf
  else cache ++ [(name, f)]

/-- Seven days in milliseconds (`this.cacheExpiry`). -/
def cacheExpiry : Int := 604800000

/-- Model of `getExactCacheResults`: read `{key}.json`; a missing or unparseable file
is caught and yields `null` (the unparseable file is left in place); an
expired entry is unlinked and yields `null`; otherwise the cached results. -/
def getExactCacheResults (st : ServiceState) (now : Int) (searchTerm : String) :
    Option DbpediaResult × ServiceState :=
  let cacheFile := generateCacheKey searchTerm ++ ".json"
  match readFile st.cache cacheFile with
  | none => (none, st)
  | some .corrupt => (none, st)
  | some (.valid parsed) =>
    if now ≤ parsed.expiry then (some parsed.results, st)
    else (none, { st with cache := unlinkFile st.cache cacheFile })

/-- The filter of `filterCachedResults`: label / description / abstract
contains the lowercased term. -/
def cacheFilterFn (term : String) (result : Candidate) : Bool :=
  (result.label != "" && jsIncludes (jsToLower result.label) term) ||
  (result.description != "" && jsIncludes (jsToLower result.description) term) ||
  (result.abstract != "" && jsIncludes (jsToLower result.abstract) term)

/-- Model of `filterCachedResults` (english and spanish lists). -/
def filterCachedResults (results : DbpediaResult) (searchTerm : String) :
    List Candidate × List Candidate :=
  let term := jsToLower searchTerm
  (results.english.filter (cacheFilterFn term), results.spanish.filter (cacheFilterFn term))

/-- Model of `calculateFuzzyRelevance`: label contains +10, label starts-with +5,
description contains +3, abstract contains +2. -/
def calculateFuzzyRelevance (result : Candidate) (term : String) : ℚ :=
  let label := jsToLower result.label
  let description := jsToLower result.description
  let score : ℚ := 0
  let score := if jsIncludes label term then score + 10 else score
  let score := if jsStartsWith label term then score + 5 else score
  let score := if jsIncludes description term then score + 3 else score
  let score :=
    if result.abstract ≠ "" ∧ jsIncludes (jsToLower result.abstract) term then score + 2
    else score
  score

/-- The per-file loop of `searchSimilarInCache` over the directory listing:
collect matches from non-expired well-formed `.json` files, unlink files whose
read threw (unparseable ones), leave everything else in place. -/
def fuzzyScan (now : Int) (searchTerm : String) :
    List (String × CacheFile) → List Candidate × List (String × CacheFile)
  | [] => ([], [])
  | (name, file) :: rest =>
    if jsEndsWith name ".json" then
      match file with
      | .corrupt => fuzzyScan now searchTerm rest
      | .valid parsed =>
        if now ≤ parsed.expiry then
          let filtered := filterCachedResults parsed.results searchTerm
          (filtered.1 ++ filtered.2 ++ (fuzzyScan now searchTerm rest).1,
            (name, file) :: (fuzzyScan now searchTerm rest).2)
        else ((fuzzyScan now searchTerm rest).1, (name, file) :: (fuzzyScan now searchTerm rest).2)
    else ((fuzzyScan now searchTerm rest).1, (name, file) :: (fuzzyScan now searchTerm rest).2)

/-- Model of `searchSimilarInCache`: scan the cache directory, score and sort the
matches, split by language. -/
def searchSimilarInCache (st : ServiceState) (now : Int) (searchTerm : String) :
    DbpediaResult × ServiceState :=
  let scan := fuzzyScan now searchTerm st.cache
  let st1 := { st with cache := scan.2 }
  if scan.1.length = 0 then (getEmptyResult now, st1)
  else
    let scored := scan.1.map fun r =>
      { r with relevance := calculateFuzzyRelevance r (jsToLower searchTerm) }
    let scored := scored.insertionSort relGE
    ({ english := scored.filter fun r => r.language == "en"
       spanish := scored.filter fun r => r.language == "es"
       total := scored.length
       source := "cache-fuzzy"
       timestamp := now }, st1)

/-- The fuzzy half of `searchFromCache` (shared by both exact-miss paths). -/
def searchFromCacheFuzzy (st : ServiceState) (now : Int) (searchTerm : String) :
    DbpediaResult × ServiceState :=
  match searchSimilarInCache st now searchTerm with
  | (sim, st2) =>
    if 0 < sim.total then ({ sim with source := "cache-fuzzy" }, st2)
    else (getEmptyResult now, st2)

/-- Model of `searchFromCache`: exact key first (tagged `"cache-exact"`), then the
fuzzy scan (tagged `"cache-fuzzy"`), else empty. -/
def searchFromCache (st : ServiceState) (now : Int) (searchTerm : String) :
    DbpediaResult × ServiceState :=
  match getExactCacheResults st now searchTerm with
  | (some r, st1) =>
    if 0 < r.total then ({ r with source := "cache-exact" }, st1)
    else searchFromCacheFuzzy st1 now searchTerm
  | (none, st1) => searchFromCacheFuzzy st1 now searchTerm

/-- Model of `cacheResults`: persist an online result under the term's cache key with a
7-day expiry. -/
def cacheResults (st : ServiceState) (now : Int) (searchTerm : String)
    (results : DbpediaResult) : ServiceState :=
  let cacheFile := generateCacheKey searchTerm ++ ".json"
  { st with cache := writeFile st.cache cacheFile (.valid
      { searchTerm := searchTerm, results := results, timestamp := now, expiry := now + cacheExpiry }) }

/-- Model of `searchWithFallback`: bundled dataset, then cache (exact, fuzzy), then the
online endpoints (an abstract oracle; `.error` is a throw or timeout; its two
language lists come from `Promise.allSettled`, a failed side being `[]`), else
the empty result.  The function is total: every failure path is caught. -/
def searchWithFallback (st : ServiceState) (now : Int)
    (online : String → Except Unit (List Candidate × List Candidate))
    (searchTerm : String) : DbpediaResult × ServiceState :=
  let localResults := searchLocal st.localDataset now searchTerm
  if 0 < localResults.total then (localResults, st)
  else
    match searchFromCache st now searchTerm with
    | (cacheRes, st1) =>
      if 0 < cacheRes.total then (cacheRes, st1)
      else
        match online searchTerm with
        | .ok (en, es) =>
          if 0 < en.length + es.length then
            (⟨en, es, en.length + es.length, "online", now⟩,
              cacheResults { st1 with isOnline := true } now searchTerm
                ⟨en, es, en.length + es.length, "online", now⟩)
          else (getEmptyResult now, st1)
        | .error _ => (getEmptyResult now, { st1 with isOnline := false })

/-- Model of `cleanExpiredCache`: delete every `.json` file that is unparseable, or
whose entry has a truthy `expiry` strictly in the past. -/
def cleanExpiredCache (st : ServiceState) (now : Int) : ServiceState :=
  { st with cache := st.cache.filter fun nf =>
      if jsEndsWith nf.1 ".json" then
        match nf.2 with
        | .corrupt => false
        | .valid data => !(data.expiry != 0 && decide (data.expiry < now))
      else true }

/-- Scenario data for concrete runs of the adapter: a dataset entry matching
`"roulette"`. -/
def entryW1 : DatasetEntry :=
  { id := "e1", label := "roulette", description := "wheel game", language := "en" }

/-- State whose bundled dataset answers the query. -/
def stW1 : ServiceState := { localDataset := some [entryW1] }

/-- A cached remote candidate. -/
def candW : Candidate := { label := "Roulette", language := "en", id := "x" }

/-- A cached result set with one entry. -/
def resW : DbpediaResult :=
  { english := [candW], spanish := [], total := 1, source := "online", timestamp := 50 }

/-- A fresh exact-key cache entry for `"roulette"`. -/
def entryExact : CacheEntry :=
  { searchTerm := "roulette", results := resW, timestamp := 50, expiry := 200 }

/-- State with an exact-key cache hit (empty dataset). -/
def stW2 : ServiceState :=
  { localDataset := some [], cache := [("roulette.json", CacheFile.valid entryExact)] }

/-- A cached candidate that only matches fuzzily. -/
def candFz : Candidate := { label := "European roulette", language := "en", id := "y" }

/-- A fresh cache entry under a different key. -/
def entryFz : CacheEntry :=
  { results := { english := [candFz], total := 1 }, expiry := 300 }

/-- State with only a fuzzy cache match. -/
def stW3 : ServiceState :=
  { localDataset := some [], cache := [("other.json", CacheFile.valid entryFz)] }

/-- State with no dataset entries and no cache. -/
def stW4 : ServiceState := { localDataset := some [] }

end LocalDbpediaService

/-- The result shape of the NLP services' `processQuery`; fields a path does
not set keep their default, matching `undefined`. -/
structure NLPResult where
  original : String := ""
  normalized : String := ""
  language : String := ""
  tokens : List String := []
  searchTerms : List String := []
  filteredTokens : List String := []
  stems : List String := []
  keywords : List String := []
  expandedTerms : List String := []
  intent : String := ""
  game : String := ""
  specificQuery : String := ""
  contextualAnswer : String := ""
deriving DecidableEq, Repr, Inhabited

namespace NLPServiceExtended

/-- The catch-block fallback of `NLPServiceExtended.processQuery`:
`{ original: query, normalized: query.toLowerCase(), language: "es",
tokens: [query], searchTerms: [query] }`. -/
def fallbackResult (query : String) : NLPResult :=
  { original := query
    normalized := jsToLower query
    language := "es"
    tokens := [query]
    searchTerms := [query] }

/-- Model of `NLPServiceExtended.processQuery`.  The try-block (language detection,
normalization, tokenization via the external `natural` library, intent and
game identification, smart-answer generation) is the abstract `body`; any
exception it raises is swallowed and replaced by the minimal fallback. -/
def processQuery (body : String → Except Unit NLPResult) (query : String) : NLPResult :=
  match body query with
  | .ok result => result
  | .error _ => fallbackResult query

end NLPServiceExtended

namespace NLPService

/-- The catch-block fallback of `NLPService.processQuery` (same literal shape
as the extended service's). -/
def fallbackResult (query : String) : NLPResult :=
  { original := query
    normalized := jsToLower query
    language := "es"
    tokens := [query]
    searchTerms := [query] }

/-- Model of `NLPService.processQuery`, with the try-block abstracted as `body`. -/
def processQuery (body : String → Except Unit NLPResult) (query : String) : NLPResult :=
  match body query with
  | .ok result => result
  | .error _ => fallbackResult query

end NLPService

namespace OntologyService

/-- One RDF triple of the loaded graph (`store.statements`), with each node
rendered by its `.value`. -/
structure RdfStatement where
  subject : String
  predicate : String
  object : String
deriving DecidableEq, Repr, Inhabited

/-- Model of `extractLocalName`: the fragment after `#`, else the last path segment. -/
def extractLocalName (uri : String) : String :=
  if uri = "" then ""
  else
    let parts := splitOnChar '#' uri.data
    if 1 < parts.length then String.mk (parts.getD 1 [])
    else String.mk ((splitOnChar '/' uri.data).getLastD [])

/-- Model of `isTechnicalProperty`: RDF/OWL scaffolding names. -/
def isTechnicalProperty (uri : String) : Bool :=
  let name := jsToLower (extractLocalName uri)
  ["property", "relation", "attribute", "field", "column", "datatype"].any fun term =>
    jsIncludes name term

/-- Model of `isDescriptiveProperty`: the whitelist of descriptive predicate names. -/
def isDescriptiveProperty (predicate : String) : Bool :=
  let propName := jsToLower predicate
  ["descripcion", "description", "definicion", "definition", "reglas", "rules",
   "objetivo", "objective", "caracteristicas", "ventajas", "desventajas",
   "probabilidad", "estrategia"].any fun prop => jsIncludes propName prop

/-- Model of `isRelevantConcept`: not a generic RDF/OWL term, and longer than 2
characters. -/
def isRelevantConcept (name : String) : Bool :=
  let nameLower := jsToLower name
  !(["thing", "resource", "namedindividual", "individual"].any fun term =>
      jsIncludes nameLower term) && decide (2 < name.length)

/-- Model of `calculateConceptRelevance`: 1, plus per term +10 exact / +5 name contains
term / +3 term contains name. -/
def calculateConceptRelevance (name : String) (searchTerms : List String) : ℚ :=
  let nameLower := jsToLower name
  1 + (searchTerms.map fun term =>
    if nameLower = term then (10 : ℚ)
    else if jsIncludes nameLower term then 5
    else if jsIncludes term nameLower then 3
    else 0).sum

/-- An entry of the `results` map accumulated by `searchByText` (keyed by the
subject URI, in insertion order). -/
structure ScanEntry where
  uri : String
  name : String
  properties : List PropVal := []
  relevance : ℚ
deriving DecidableEq, Repr, Inhabited

/-- Model of `results.get(uri)` on the accumulation map. -/
def lookupEntry (results : List ScanEntry) (uri : String) : Option ScanEntry :=
  results.find? fun e => e.uri == uri

/-- Model of `results.get(uri).relevance += 1`. -/
def bumpEntry (results : List ScanEntry) (uri : String) : List ScanEntry :=
  results.map fun e => if e.uri == uri then { e with relevance := e.relevance + 1 } else e

/-- The body of the `allStatements.forEach` of `searchByText`: the typed-name
branch, then the descriptive-literal branch. -/
def processStatement (searchTerms : List String) (results : List ScanEntry)
    (stmt : RdfStatement) : List ScanEntry :=
  let results :=
    if jsIncludes stmt.predicate "type" && jsIncludes stmt.subject "#" &&
        !isTechnicalProperty stmt.subject then
      let uri := stmt.subject
      let name := extractLocalName uri
      let nameLower := jsToLower name
      let hasMatch := searchTerms.any fun term => jsIncludes nameLower term
      if hasMatch && isRelevantConcept name then
        if (lookupEntry results uri).isSome then results
        else results ++ [{ uri := uri, name := name
                           relevance := calculateConceptRelevance name searchTerms }]
      else results
    else results
  if jsIncludes stmt.subject "#" && isDescriptiveProperty stmt.predicate &&
      stmt.object != "" then
    let objectLower := jsToLower stmt.object
    let hasMatch := searchTerms.any fun term => jsIncludes objectLower term
    if hasMatch then
      let uri := stmt.subject
      if (lookupEntry results uri).isNone && isRelevantConcept (extractLocalName uri) then
        results ++ [{ uri := uri, name := extractLocalName uri, relevance := 1 }]
      else if (lookupEntry results uri).isSome then bumpEntry results uri
      else results
    else results
  else results

/-- The accumulated `results` map after the scan, in insertion order. -/
def scanResults (statements : List RdfStatement) (searchTerms : List String) :
    List ScanEntry :=
  statements.foldl (processStatement searchTerms) []

/-- Model of `isRelevantForDisplay`:
`result.relevance > 1 && result.name && result.name.length > 2`. -/
def isRelevantForDisplay (result : ScanEntry) : Bool :=
  decide (1 < result.relevance) && result.name != "" && decide (2 < result.name.length)

/-- Descending-relevance preorder of the `(a, b) => b.relevance - a.relevance`
sort. -/
def scanRelGE (a b : ScanEntry) : Prop := b.relevance ≤ a.relevance

instance : DecidableRel scanRelGE :=
  fun a b => inferInstanceAs (Decidable (b.relevance ≤ a.relevance))

instance : IsTotal ScanEntry scanRelGE := ⟨fun a b => le_total b.relevance a.relevance⟩

instance : IsTrans ScanEntry scanRelGE := ⟨fun _ _ _ h1 h2 => le_trans h2 h1⟩

/-- Model of `searchByText`, up to the final presentation step: the NLP search terms
(an input here; the source obtains them from `nlpService.processQuery`) are
lowercased, the statements are scanned, and the accumulated candidates are
filtered by `isRelevantForDisplay`, sorted descending by relevance and capped
at 10.  The trailing `map(formatAsGoogleStyle(...))` of the source wraps each
surviving candidate in a presentation record, preserving `relevance` and
deriving the display fields from `name`; the claims are stated on this
candidate list. -/
def searchByText (statements : List RdfStatement) (nlpSearchTerms : List String) :
    List ScanEntry :=
  let searchTerms := nlpSearchTerms.map jsToLower
  (((scanResults statements searchTerms).filter isRelevantForDisplay).insertionSort
    scanRelGE).take 10

end OntologyService

/-! ## Properties of the stable sort -/

/-- A stable sort does not reorder the elements selected by a predicate whose
selected elements are pairwise related both ways (e.g. "score equals `s`"):
their subsequence is unchanged. -/
theorem filter_insertionSort {α : Type} (r : α → α → Prop) [DecidableRel r] (p : α → Bool)
    (hp : ∀ a b, p a = true → p b = true → r a b) (l : List α) :
    (l.insertionSort r).filter p = l.filter p := by
  have hpw : (l.filter p).Pairwise r := by
    rw [List.pairwise_iff_forall_sublist]
    intro a b hab
    have ha : a ∈ l.filter p := hab.subset (by simp)
    have hb : b ∈ l.filter p := hab.subset (by simp)
    exact hp a b (List.of_mem_filter ha) (List.of_mem_filter hb)
  have hsub : List.Sublist (l.filter p) (l.insertionSort r) :=
    List.sublist_insertionSort hpw (List.filter_sublist l)
  have h2 : List.Sublist (l.filter p) ((l.insertionSort r).filter p) := by
    have h3 := hsub.filter p
    rwa [List.filter_eq_self.mpr (fun a ha => List.of_mem_filter ha)] at h3
  have hlen : ((l.insertionSort r).filter p).length = (l.filter p).length :=
    ((List.perm_insertionSort r l).filter p).length_eq
  exact (h2.eq_of_length hlen.symm).symm

/-! ## Properties of `removeDuplicates` -/

namespace UnifiedSearchService

theorem dedupStep_eq_dedupInsert (unique : List Candidate) (result : Candidate) :
    dedupStep unique result = dedupInsert result unique := by
  induction unique with
  | nil => rfl
  | cons u us ih =>
    by_cases h : (nameKey u == nameKey result) = true
    · simp [dedupStep, dedupInsert, List.findIdx?_cons, h]
    · rw [dedupStep, List.findIdx?_cons, if_neg h, List.findIdx?_succ]
      rw [dedupInsert, if_neg h, ← ih, dedupStep]
      cases hfind : us.findIdx? (fun u => nameKey u == nameKey result) with
      | none => simp
      | some i =>
        simp only [Option.map_some', List.getD_cons_succ, List.set_cons_succ]
        split <;> rfl

theorem removeDuplicates_eq (l : List Candidate) :
    removeDuplicates l = l.foldl (fun acc c => dedupInsert c acc) [] := by
  have h : dedupStep = fun acc c => dedupInsert c acc :=
    funext fun acc => funext fun c => dedupStep_eq_dedupInsert acc c
  rw [removeDuplicates, h]

theorem filter_dedupInsert (c : Candidate) (k : String) (acc : List Candidate) :
    (dedupInsert c acc).filter (fun u => nameKey u == k) =
      if nameKey c == k then keepStep (acc.filter (fun u => nameKey u == k)) c
      else acc.filter (fun u => nameKey u == k) := by
  induction acc with
  | nil => by_cases h : (nameKey c == k) = true <;> simp [dedupInsert, keepStep, h]
  | cons u us ih =>
    by_cases h1 : (nameKey u == nameKey c) = true
    · have h1' : nameKey u = nameKey c := by simpa using h1
      by_cases h2 : (nameKey c == k) = true
      · have hu : (nameKey u == k) = true := by simp [h1']; simpa using h2
        rw [dedupInsert, if_pos h1]
        by_cases hs : rankScore u < rankScore c
        · simp [hs, List.filter_cons, hu, h2, keepStep]
        · simp [hs, List.filter_cons, hu, h2, keepStep]
      · have hu : (nameKey u == k) = false := by
          rw [h1']; simpa using h2
        rw [dedupInsert, if_pos h1]
        by_cases hs : rankScore u < rankScore c
        · simp [hs, List.filter_cons, hu, h2]
        · simp [hs, List.filter_cons, hu, h2]
    · rw [dedupInsert, if_neg h1]
      by_cases hu : (nameKey u == k) = true
      · have h2 : (nameKey c == k) = false := by
          have h1' : nameKey u ≠ nameKey c := by simpa using h1
          have hu' : nameKey u = k := by simpa using hu
          simp only [beq_eq_false_iff_ne, ne_eq]
          intro hc
          exact h1' (hu'.trans hc.symm)
        simp [List.filter_cons, hu, h2, ih]
      · simp [List.filter_cons, hu, ih]

theorem filter_foldl_dedupInsert (l : List Candidate) (k : String) : ∀ acc,
    (l.foldl (fun acc c => dedupInsert c acc) acc).filter (fun u => nameKey u == k) =
      (l.filter (fun u => nameKey u == k)).foldl keepStep
        (acc.filter (fun u => nameKey u == k)) := by
  induction l with
  | nil => intro acc; rfl
  | cons c l ih =>
    intro acc
    rw [List.foldl_cons, ih, filter_dedupInsert]
    by_cases h : (nameKey c == k) = true
    · simp [List.filter_cons, h]
    · simp [List.filter_cons, h]

theorem foldl_keepStep_singleton : ∀ (t : List Candidate) (b : Candidate),
    t.foldl keepStep [b] =
      [t.foldl (fun x c => if rankScore x < rankScore c then c else x) b] := by
  intro t
  induction t with
  | nil => intro b; rfl
  | cons c t ih => intro b; rw [List.foldl_cons, List.foldl_cons, keepStep, ih]

/-- The key characterization of `removeDuplicates`: for every key `k`, the
output's subsequence of entries with key `k` is the singleton consisting of
the *first* input candidate attaining the maximal
`(relevance || 1) * (sourceBoost || 1)` among the input candidates with that
key (empty when no input candidate has the key).  In particular the output has
exactly one entry per key present, the higher-scoring of two colliding
candidates survives, and on a score tie the earlier-inserted one survives. -/
theorem removeDuplicates_filter (l : List Candidate) (k : String) :
    (removeDuplicates l).filter (fun u => nameKey u == k) =
      match l.filter (fun u => nameKey u == k) with
      | [] => []
      | h :: t => [t.foldl (fun x c => if rankScore x < rankScore c then c else x) h] := by
  rw [removeDuplicates_eq, filter_foldl_dedupInsert]
  cases hf : l.filter (fun u => nameKey u == k) with
  | nil => rfl
  | cons h t => rw [List.filter_nil, List.foldl_cons, keepStep, foldl_keepStep_singleton]

theorem mem_dedupInsert {x c : Candidate} : ∀ {acc : List Candidate},
    x ∈ dedupInsert c acc → x = c ∨ x ∈ acc := by
  intro acc
  induction acc with
  | nil => intro h; simpa [dedupInsert] using h
  | cons u us ih =>
    intro h
    rw [dedupInsert] at h
    by_cases h1 : (nameKey u == nameKey c) = true
    · rw [if_pos h1] at h
      by_cases hs : rankScore u < rankScore c
      · rw [if_pos hs] at h
        rcases List.mem_cons.mp h with h | h
        · exact Or.inl h
        · exact Or.inr (List.mem_cons_of_mem u h)
      · rw [if_neg hs] at h
        exact Or.inr h
    · rw [if_neg h1] at h
      rcases List.mem_cons.mp h with h | h
      · exact Or.inr (h ▸ List.mem_cons_self u us)
      · rcases ih h with h | h
        · exact Or.inl h
        · exact Or.inr (List.mem_cons_of_mem u h)

theorem mem_foldl_dedupInsert {x : Candidate} : ∀ (l acc : List Candidate),
    x ∈ l.foldl (fun acc c => dedupInsert c acc) acc → x ∈ acc ∨ x ∈ l := by
  intro l
  induction l with
  | nil => intro acc h; exact Or.inl h
  | cons c l ih =>
    intro acc h
    rw [List.foldl_cons] at h
    rcases ih (dedupInsert c acc) h with h | h
    · rcases mem_dedupInsert h with h | h
      · exact Or.inr (h ▸ List.mem_cons_self c l)
      · exact Or.inl h
    · exact Or.inr (List.mem_cons_of_mem c h)

theorem mem_removeDuplicates {x : Candidate} {l : List Candidate}
    (h : x ∈ removeDuplicates l) : x ∈ l := by
  rw [removeDuplicates_eq] at h
  rcases mem_foldl_dedupInsert l [] h with h | h
  · cases h
  · exact h

end UnifiedSearchService

/-! ## Score facts used by the fusion claims -/

theorem orOne_pos {x : ℚ} (h : 0 ≤ x) : 0 < orOne x := by
  unfold orOne
  split
  · norm_num
  · rename_i h0
    exact lt_of_le_of_ne h (Ne.symm h0)

namespace UnifiedSearchService

theorem calculateLocalRelevance_pos (c : Candidate) (q : String) (h : 0 ≤ c.relevance) :
    0 < calculateLocalRelevance c q := by
  have h1 := orOne_pos h
  simp only [calculateLocalRelevance]
  split_ifs <;> linarith

theorem calculateDbpediaRelevance_pos (c : Candidate) (q : String) (h : 0 ≤ c.relevance) :
    0 < calculateDbpediaRelevance c q := by
  have h1 := orOne_pos h
  simp only [calculateDbpediaRelevance]
  split_ifs <;> linarith

theorem mem_allResults_props {L : List Candidate} {E : DbpediaResult} {q : String}
    (hL : ∀ c ∈ L, 0 ≤ c.relevance) (hEn : ∀ c ∈ E.english, 0 ≤ c.relevance)
    (hEs : ∀ c ∈ E.spanish, 0 ≤ c.relevance) :
    ∀ x ∈ allResults L E q, 0 < x.relevance ∧ (x.sourceBoost = 6 / 5 ∨ x.sourceBoost = 1) := by
  intro x hx
  simp only [allResults] at hx
  rcases List.mem_append.mp hx with hx1 | hx2
  · rcases List.mem_append.mp hx1 with hx3 | hx3
    · rcases List.mem_map.mp hx3 with ⟨c, hc, rfl⟩
      exact ⟨calculateLocalRelevance_pos c _ (hL c hc), Or.inl rfl⟩
    · rcases List.mem_map.mp hx3 with ⟨c, hc, rfl⟩
      exact ⟨calculateDbpediaRelevance_pos c _ (hEn c hc), Or.inr rfl⟩
  · rcases List.mem_map.mp hx2 with ⟨c, hc, rfl⟩
    exact ⟨calculateDbpediaRelevance_pos c _ (hEs c hc), Or.inr rfl⟩

theorem rankScore_eq_prod {c : Candidate} (h1 : 0 < c.relevance)
    (h2 : c.sourceBoost = 6 / 5 ∨ c.sourceBoost = 1) :
    rankScore c = c.relevance * c.sourceBoost := by
  have hr : orOne c.relevance = c.relevance := by
    unfold orOne; rw [if_neg (ne_of_gt h1)]
  have hb : orOne c.sourceBoost = c.sourceBoost := by
    unfold orOne
    rcases h2 with h2 | h2 <;> rw [h2] <;> norm_num
  unfold rankScore; rw [hr, hb]

theorem rankScore_eq_prod_of_ne {c : Candidate} (h1 : c.relevance ≠ 0)
    (h2 : c.sourceBoost ≠ 0) : rankScore c = c.relevance * c.sourceBoost := by
  unfold rankScore orOne
  rw [if_neg h1, if_neg h2]

theorem mem_combineAndRankResults {x : Candidate} {L : List Candidate} {E : DbpediaResult}
    {q : String} (hx : x ∈ combineAndRankResults L E q) : x ∈ allResults L E q :=
  mem_removeDuplicates ((List.perm_insertionSort scoreGE _).mem_iff.mp hx)

theorem foldl_best_congr : ∀ (t : List Candidate) (b : Candidate),
    b.relevance ≠ 0 ∧ b.sourceBoost ≠ 0 →
    (∀ c ∈ t, c.relevance ≠ 0 ∧ c.sourceBoost ≠ 0) →
    t.foldl (fun x c => if rankScore x < rankScore c then c else x) b =
      t.foldl (fun x c =>
        if x.relevance * x.sourceBoost < c.relevance * c.sourceBoost then c else x) b := by
  intro t
  induction t with
  | nil => intro b _ _; rfl
  | cons c t ih =>
    intro b hb hc
    have hc1 := hc c (List.mem_cons_self c t)
    have step : (if rankScore b < rankScore c then c else b) =
        (if b.relevance * b.sourceBoost < c.relevance * c.sourceBoost then c else b) := by
      rw [rankScore_eq_prod_of_ne hb.1 hb.2, rankScore_eq_prod_of_ne hc1.1 hc1.2]
    rw [List.foldl_cons, List.foldl_cons, ← step]
    exact ih _ (by split; exacts [hc1, hb]) fun x hx => hc x (List.mem_cons_of_mem c hx)

end UnifiedSearchService

/-! ## Claims about the fusion and ranking engine -/

namespace UnifiedSearchService

/-- Claim C1.  For every list of local candidates and every external result set
(all raw relevances nonnegative, as every producer in the pipeline
guarantees), the fused list returned by `combineAndRankResults` is in
non-increasing order of score, where a candidate's score is its `relevance`
times its `sourceBoost`; candidates with equal score keep their relative
insertion order (local candidates first, then external English, then external
Spanish — the construction order of `allResults`), stated as: for every score
value, the equal-score subsequence of the output coincides with that of the
deduplicated pre-sort list.  Moreover `search` returns exactly the first
`maxResults` entries of that ranked list, so at most `maxResults` entries, and
the default `maxResults` is 20. -/
theorem c1_fusion_ranked_stable_truncated
    (L : List Candidate) (E : DbpediaResult) (q : String)
    (ontologySearch : String → Except Unit (List Candidate))
    (dbpediaAdapter : String → Except Unit DbpediaResult)
    (options : SearchOptions)
    (hL : ∀ c ∈ L, 0 ≤ c.relevance)
    (hEn : ∀ c ∈ E.english, 0 ≤ c.relevance)
    (hEs : ∀ c ∈ E.spanish, 0 ≤ c.relevance) :
    (combineAndRankResults L E q).Pairwise
      (fun a b => b.relevance * b.sourceBoost ≤ a.relevance * a.sourceBoost) ∧
    (∀ s : ℚ,
      (combineAndRankResults L E q).filter (fun c => c.relevance * c.sourceBoost == s) =
        (removeDuplicates (allResults L E q)).filter
          (fun c => c.relevance * c.sourceBoost == s)) ∧
    (search ontologySearch dbpediaAdapter q options).results =
      (combineAndRankResults (searchLocalResults ontologySearch q options)
          (searchDbpediaResults dbpediaAdapter q options) q).take options.maxResults ∧
    (search ontologySearch dbpediaAdapter q options).results.length ≤ options.maxResults ∧
    ({} : SearchOptions).maxResults = 20 := by
  have hmem : ∀ x ∈ combineAndRankResults L E q,
      0 < x.relevance ∧ (x.sourceBoost = 6 / 5 ∨ x.sourceBoost = 1) :=
    fun x hx => mem_allResults_props hL hEn hEs x (mem_combineAndRankResults hx)
  refine ⟨?_, ?_, rfl, ?_, rfl⟩
  · have hs : (combineAndRankResults L E q).Pairwise scoreGE :=
      List.sorted_insertionSort scoreGE _
    refine List.Pairwise.imp_of_mem ?_ hs
    intro a b ha hb hr
    rcases hmem _ ha with ⟨h1, h2⟩
    rcases hmem _ hb with ⟨h3, h4⟩
    rw [← rankScore_eq_prod h1 h2, ← rankScore_eq_prod h3 h4]
    exact hr
  · intro s
    have base := filter_insertionSort scoreGE (fun c => rankScore c == s)
      (fun a b ha hb => by
        have ha' : rankScore a = s := by simpa using ha
        have hb' : rankScore b = s := by simpa using hb
        unfold scoreGE
        rw [ha', hb'])
      (removeDuplicates (allResults L E q))
    have hcongr1 : (combineAndRankResults L E q).filter
          (fun c => c.relevance * c.sourceBoost == s) =
        (combineAndRankResults L E q).filter (fun c => rankScore c == s) := by
      refine List.filter_congr ?_
      intro x hx
      rcases hmem x hx with ⟨h1, h2⟩
      rw [rankScore_eq_prod h1 h2]
    have hcongr2 : (removeDuplicates (allResults L E q)).filter
          (fun c => c.relevance * c.sourceBoost == s) =
        (removeDuplicates (allResults L E q)).filter (fun c => rankScore c == s) := by
      refine List.filter_congr ?_
      intro x hx
      rcases mem_allResults_props hL hEn hEs x (mem_removeDuplicates hx) with ⟨h1, h2⟩
      rw [rankScore_eq_prod h1 h2]
    rw [hcongr1, hcongr2]
    exact base
  · exact List.length_take_le _ _

/-- Witness for C1 at a concrete input. -/
theorem c1_witness :
    (combineAndRankResults [{ name := "Ruleta", relevance := 2 }] noDbpedia "ruleta").Pairwise
      (fun a b => b.relevance * b.sourceBoost ≤ a.relevance * a.sourceBoost) ∧
    ({} : SearchOptions).maxResults = 20 := by
  have h := c1_fusion_ranked_stable_truncated [{ name := "Ruleta", relevance := 2 }] noDbpedia
    "ruleta" (fun _ => .ok []) (fun _ => .error ()) {}
    (by
      intro c hc
      rcases List.mem_singleton.mp hc with rfl
      norm_num)
    (by intro c hc; simp [noDbpedia] at hc)
    (by intro c hc; simp [noDbpedia] at hc)
  exact ⟨h.1, h.2.2.2.2⟩

/-- Claim C2.  A fusion input of one local-origin and one remote-origin
candidate with equal positive fused relevance and non-colliding normalized
names yields exactly `[local, remote]`: the local candidate is ranked
strictly before the remote one, because its score carries the 1.2 boost
against the remote 1.0. -/
theorem c2_local_outranks_remote_at_equal_relevance
    (cl cr : Candidate) (q : String) (tot : Nat) (src : String) (ts : Int)
    (hk : nameKey cl ≠ nameKey cr)
    (hrel : calculateLocalRelevance cl (jsToLower q) =
      calculateDbpediaRelevance cr (jsToLower q))
    (hpos : 0 < calculateLocalRelevance cl (jsToLower q)) :
    combineAndRankResults [cl]
        { english := [cr], spanish := [], total := tot, source := src, timestamp := ts } q =
      [annotateLocal (jsToLower q) cl, annotateDbpedia "DBpedia (EN)" (jsToLower q) cr] := by
  have hkey : (nameKey (annotateLocal (jsToLower q) cl) ==
      nameKey (annotateDbpedia "DBpedia (EN)" (jsToLower q) cr)) = false := by
    simp only [beq_eq_false_iff_ne, ne_eq]
    exact hk
  have hge : scoreGE (annotateLocal (jsToLower q) cl)
      (annotateDbpedia "DBpedia (EN)" (jsToLower q) cr) := by
    show orOne (calculateDbpediaRelevance cr (jsToLower q)) * orOne 1 ≤
      orOne (calculateLocalRelevance cl (jsToLower q)) * orOne (6 / 5)
    have hb1 : orOne (6 / 5 : ℚ) = 6 / 5 := by unfold orOne; norm_num
    have hb2 : orOne (1 : ℚ) = 1 := by unfold orOne; norm_num
    have hr1 : orOne (calculateLocalRelevance cl (jsToLower q)) =
        calculateLocalRelevance cl (jsToLower q) := by
      unfold orOne; rw [if_neg (ne_of_gt hpos)]
    rw [hb1, hb2, ← hrel, hr1]
    linarith
  have hdedup : removeDuplicates (allResults [cl]
      { english := [cr], spanish := [], total := tot, source := src, timestamp := ts } q) =
      [annotateLocal (jsToLower q) cl, annotateDbpedia "DBpedia (EN)" (jsToLower q) cr] := by
    rw [removeDuplicates_eq]
    show dedupInsert (annotateDbpedia "DBpedia (EN)" (jsToLower q) cr)
      (dedupInsert (annotateLocal (jsToLower q) cl) []) = _
    rw [dedupInsert]
    show (if (nameKey (annotateLocal (jsToLower q) cl) ==
        nameKey (annotateDbpedia "DBpedia (EN)" (jsToLower q) cr)) = true then _ else _) = _
    rw [hkey]
    simp only [Bool.false_eq_true, if_false]
    rfl
  show (removeDuplicates _).insertionSort scoreGE = _
  rw [hdedup]
  refine List.Sorted.insertionSort_eq ?_
  rw [List.sorted_cons]
  refine ⟨?_, List.sorted_singleton _⟩
  intro b hb
  rcases List.mem_singleton.mp hb with rfl
  exact hge

/-- Witness for C2 at a concrete input (both fused relevances are 5). -/
theorem c2_witness :
    combineAndRankResults [{ name := "Ruleta", relevance := 5 }]
        { english := [{ label := "Roulette", relevance := 5, id := "r1" }], spanish := [],
          total := 1, source := "", timestamp := 0 } "zzz" =
      [annotateLocal (jsToLower "zzz") { name := "Ruleta", relevance := 5 },
        annotateDbpedia "DBpedia (EN)" (jsToLower "zzz")
          { label := "Roulette", relevance := 5, id := "r1" }] :=
  c2_local_outranks_remote_at_equal_relevance { name := "Ruleta", relevance := 5 }
    { label := "Roulette", relevance := 5, id := "r1" } "zzz" 1 "" 0
    (by decide) (by decide) (by decide)

/-- Claim C3.  For every fusion input, and every normalization key, the
deduplicated output contains at most one entry whose display name folds to
that key: none when no input candidate has the key, and otherwise exactly the
first input candidate attaining the maximal `relevance × sourceBoost` among
the candidates with that key — so of two colliding candidates the
higher-scoring one survives, and at equal scores the earlier-inserted one
survives.  (The hypothesis that relevances and boosts are nonzero always
holds for the fused candidates this function is applied to.) -/
theorem c3_dedup_keeps_first_best
    (l : List Candidate) (k : String)
    (h : ∀ c ∈ l, c.relevance ≠ 0 ∧ c.sourceBoost ≠ 0) :
    (removeDuplicates l).filter (fun u => nameKey u == k) =
      match l.filter (fun u => nameKey u == k) with
      | [] => []
      | hd :: t => [t.foldl (fun x c =>
          if x.relevance * x.sourceBoost < c.relevance * c.sourceBoost then c else x) hd] := by
  rw [removeDuplicates_filter]
  cases hf : l.filter (fun u => nameKey u == k) with
  | nil => rfl
  | cons hd t =>
    have hsub : ∀ c ∈ hd :: t, c.relevance ≠ 0 ∧ c.sourceBoost ≠ 0 := by
      intro c hc
      exact h c (List.mem_of_mem_filter (hf ▸ hc))
    show [t.foldl (fun x c => if rankScore x < rankScore c then c else x) hd] =
      [t.foldl (fun x c =>
        if x.relevance * x.sourceBoost < c.relevance * c.sourceBoost then c else x) hd]
    exact congrArg (fun z => [z]) (foldl_best_congr t hd (hsub hd (List.mem_cons_self hd t))
      (fun c hc => hsub c (List.mem_cons_of_mem hd hc)))

/-- Witness for C3: two candidates whose names fold to the key
`"blackjack"`; the later, higher-scoring one survives alone. -/
theorem c3_witness :
    (removeDuplicates
        [{ name := "Blackjack", relevance := 2, sourceBoost := 1 },
          { label := "Blackjack!!!", relevance := 3, sourceBoost := 1 }]).filter
      (fun u => nameKey u == "blackjack") =
      [{ label := "Blackjack!!!", relevance := 3, sourceBoost := 1 }] := by
  rw [c3_dedup_keeps_first_best
    [{ name := "Blackjack", relevance := 2, sourceBoost := 1 },
      { label := "Blackjack!!!", relevance := 3, sourceBoost := 1 }] "blackjack"
    (by decide)]
  have hfil : List.filter (fun u => nameKey u == "blackjack")
      [{ name := "Blackjack", relevance := 2, sourceBoost := 1 },
        { label := "Blackjack!!!", relevance := 3, sourceBoost := 1 }] =
      [{ name := "Blackjack", relevance := 2, sourceBoost := 1 },
        { label := "Blackjack!!!", relevance := 3, sourceBoost := 1 }] := by decide
  rw [hfil]
  norm_num

theorem searchDbpediaResults_of_local {dbpediaAdapter : String → Except Unit DbpediaResult}
    {query : String} {options : SearchOptions} (h : options.mode = "local") :
    searchDbpediaResults dbpediaAdapter query options = noDbpedia := by
  unfold searchDbpediaResults
  rw [if_neg]
  rintro ⟨-, hm | hm⟩ <;> rw [h] at hm <;> exact absurd hm (by decide)

/-- Claim C7.  When the search mode is `"local"`, the external knowledge
adapter is never invoked even when `includeDbpedia` is true: the search
response does not depend on the adapter function at all, and it is identical
for any two values of the `includeDbpedia` flag. -/
theorem c7_local_mode_ignores_adapter
    (ontologySearch : String → Except Unit (List Candidate))
    (dbpediaAdapter dbpediaAdapter' : String → Except Unit DbpediaResult)
    (query : String) (options : SearchOptions) (hmode : options.mode = "local") :
    search ontologySearch dbpediaAdapter query options =
      search ontologySearch dbpediaAdapter' query options ∧
    (∀ b1 b2 : Bool,
      search ontologySearch dbpediaAdapter query { options with includeDbpedia := b1 } =
        search ontologySearch dbpediaAdapter query { options with includeDbpedia := b2 }) := by
  constructor
  · unfold search
    rw [@searchDbpediaResults_of_local dbpediaAdapter query options hmode,
      @searchDbpediaResults_of_local dbpediaAdapter' query options hmode]
  · intro b1 b2
    unfold search
    rw [@searchDbpediaResults_of_local dbpediaAdapter query
        { options with includeDbpedia := b1 } hmode,
      @searchDbpediaResults_of_local dbpediaAdapter query
        { options with includeDbpedia := b2 } hmode]
    exact rfl

/-- Witness for C7 with two adapters that differ observably. -/
theorem c7_witness :
    search (fun _ => .ok [{ name := "Ruleta", relevance := 5 }]) (fun _ => .error ()) "ruleta"
        { mode := "local", includeDbpedia := true } =
      search (fun _ => .ok [{ name := "Ruleta", relevance := 5 }])
        (fun _ => .ok { english := [{ label := "X" }], spanish := [], total := 1 }) "ruleta"
        { mode := "local", includeDbpedia := true } :=
  (c7_local_mode_ignores_adapter (fun _ => .ok [{ name := "Ruleta", relevance := 5 }])
    (fun _ => .error ())
    (fun _ => .ok { english := [{ label := "X" }], spanish := [], total := 1 }) "ruleta"
    { mode := "local", includeDbpedia := true } rfl).1

/-- Claim C8, amended.  The reported statistics satisfy: `localCount` is the
pre-fusion local candidate count, `dbpedia` is the external result set's
reported total, `total` is the POST-truncation (returned) result count — that
is, `min maxResults (pre-truncation count)`, not the pre-truncation count the
original claim states — and `maxRelevance` is the fused relevance of the
top-ranked returned result (0 when the result list is empty). -/
theorem c8_stats_amended
    (ontologySearch : String → Except Unit (List Candidate))
    (dbpediaAdapter : String → Except Unit DbpediaResult)
    (query : String) (options : SearchOptions) :
    (search ontologySearch dbpediaAdapter query options).stats.localCount =
      (searchLocalResults ontologySearch query options).length ∧
    (search ontologySearch dbpediaAdapter query options).stats.dbpedia =
      (searchDbpediaResults dbpediaAdapter query options).total ∧
    (search ontologySearch dbpediaAdapter query options).stats.total =
      (search ontologySearch dbpediaAdapter query options).results.length ∧
    (search ontologySearch dbpediaAdapter query options).stats.total =
      min options.maxResults
        (combineAndRankResults (searchLocalResults ontologySearch query options)
          (searchDbpediaResults dbpediaAdapter query options) query).length ∧
    (search ontologySearch dbpediaAdapter query options).stats.maxRelevance =
      (match (search ontologySearch dbpediaAdapter query options).results with
        | [] => 0
        | r :: _ => r.relevance) := by
  refine ⟨rfl, rfl, rfl, ?_, rfl⟩
  exact List.length_take _ _

/-- Claim C8, counterexample.  With two fused results and `maxResults := 1`, the
reported `stats.total` is 1 (the truncated count) while the pre-truncation
result count is 2 — refuting the claim that `total` equals the pre-truncation
count. -/
theorem c8_counterexample :
    (search (fun _ => .ok [{ name := "Aaa", relevance := 5 }, { name := "Bbb", relevance := 5 }])
        (fun _ => .error ()) "zzz" { maxResults := 1 }).stats.total = 1 ∧
    (combineAndRankResults
        (searchLocalResults
          (fun _ => .ok [{ name := "Aaa", relevance := 5 }, { name := "Bbb", relevance := 5 }])
          "zzz" { maxResults := 1 })
        (searchDbpediaResults (fun _ => .error ()) "zzz" { maxResults := 1 }) "zzz").length =
      2 := by
  have hlen : ∀ L E q, (combineAndRankResults L E q).length =
      (removeDuplicates (allResults L E q)).length := by
    intro L E q
    exact List.length_insertionSort scoreGE _
  have hded : (removeDuplicates (allResults
      (searchLocalResults
        (fun _ => .ok [{ name := "Aaa", relevance := 5 }, { name := "Bbb", relevance := 5 }])
        "zzz" { maxResults := 1 })
      (searchDbpediaResults (fun _ => .error ()) "zzz" { maxResults := 1 }) "zzz")).length = 2 := by
    rw [removeDuplicates_eq]
    decide
  constructor
  · show ((combineAndRankResults _ _ "zzz").take 1).length = 1
    rw [List.length_take, hlen, hded]
    decide
  · rw [hlen, hded]

end UnifiedSearchService

/-! ## Claims about the external-knowledge adapter -/

namespace LocalDbpediaService

theorem searchLocal_source_of_pos {dataset : Option (List DatasetEntry)} {now : Int}
    {term : String} (h : 0 < (searchLocal dataset now term).total) :
    (searchLocal dataset now term).source = "local-dataset" := by
  cases dataset with
  | none => exact absurd h (by simp [searchLocal, getEmptyResult])
  | some entries => rfl

theorem searchFromCacheFuzzy_hit {st : ServiceState} {now : Int} {term : String}
    {s : DbpediaResult} {st2 : ServiceState}
    (h : searchSimilarInCache st now term = (s, st2)) (hs : 0 < s.total) :
    searchFromCacheFuzzy st now term = ({ s with source := "cache-fuzzy" }, st2) := by
  unfold searchFromCacheFuzzy
  rw [h]
  show (if 0 < s.total then ({ s with source := "cache-fuzzy" }, st2)
    else (getEmptyResult now, st2)) = _
  rw [if_pos hs]

theorem searchFromCacheFuzzy_miss {st : ServiceState} {now : Int} {term : String}
    {s : DbpediaResult} {st2 : ServiceState}
    (h : searchSimilarInCache st now term = (s, st2)) (hs : s.total = 0) :
    searchFromCacheFuzzy st now term = (getEmptyResult now, st2) := by
  unfold searchFromCacheFuzzy
  rw [h]
  show (if 0 < s.total then ({ s with source := "cache-fuzzy" }, st2)
    else (getEmptyResult now, st2)) = _
  rw [if_neg (by rw [hs]; exact lt_irrefl 0)]

theorem searchFromCache_exact_hit {st : ServiceState} {now : Int} {term : String}
    {r : DbpediaResult} {st1 : ServiceState}
    (h : getExactCacheResults st now term = (some r, st1)) (hr : 0 < r.total) :
    searchFromCache st now term = ({ r with source := "cache-exact" }, st1) := by
  unfold searchFromCache
  rw [h]
  show (if 0 < r.total then ({ r with source := "cache-exact" }, st1)
    else searchFromCacheFuzzy st1 now term) = _
  rw [if_pos hr]

theorem searchFromCache_to_fuzzy {st : ServiceState} {now : Int} {term : String}
    {e : Option DbpediaResult} {st1 : ServiceState}
    (h : getExactCacheResults st now term = (e, st1))
    (he : e = none ∨ ∃ r, e = some r ∧ r.total = 0) :
    searchFromCache st now term = searchFromCacheFuzzy st1 now term := by
  rcases he with rfl | ⟨r, rfl, hr0⟩
  · unfold searchFromCache
    rw [h]
  · unfold searchFromCache
    rw [h]
    show (if 0 < r.total then ({ r with source := "cache-exact" }, st1)
      else searchFromCacheFuzzy st1 now term) = _
    rw [if_neg (by rw [hr0]; exact lt_irrefl 0)]

/-- Claim C4.  `searchWithFallback` consults its sources in strict priority
order — bundled local dataset, exact cache key, fuzzy cache scan, online
endpoints — returns the first stage yielding at least one match with the
corresponding `source` tag, and returns the empty result (source `"empty"`)
when every stage yields zero results or the online stage rejects.  The
function is total (modelled without any escaping exception): every failure
path is caught. -/
theorem c4_fallback_priority :
    (∀ (st : ServiceState) (now : Int)
        (online : String → Except Unit (List Candidate × List Candidate)) (term : String),
      0 < (searchLocal st.localDataset now term).total →
        searchWithFallback st now online term = (searchLocal st.localDataset now term, st) ∧
        (searchWithFallback st now online term).1.source = "local-dataset") ∧
    (∀ (st : ServiceState) (now : Int)
        (online : String → Except Unit (List Candidate × List Candidate)) (term : String)
        (r : DbpediaResult) (st1 : ServiceState),
      (searchLocal st.localDataset now term).total = 0 →
      getExactCacheResults st now term = (some r, st1) → 0 < r.total →
        searchWithFallback st now online term = ({ r with source := "cache-exact" }, st1)) ∧
    (∀ (st : ServiceState) (now : Int)
        (online : String → Except Unit (List Candidate × List Candidate)) (term : String)
        (e : Option DbpediaResult) (st1 : ServiceState) (s : DbpediaResult)
        (st2 : ServiceState),
      (searchLocal st.localDataset now term).total = 0 →
      getExactCacheResults st now term = (e, st1) →
      (e = none ∨ ∃ r, e = some r ∧ r.total = 0) →
      searchSimilarInCache st1 now term = (s, st2) → 0 < s.total →
        searchWithFallback st now online term = ({ s with source := "cache-fuzzy" }, st2)) ∧
    (∀ (st : ServiceState) (now : Int)
        (online : String → Except Unit (List Candidate × List Candidate)) (term : String)
        (c : DbpediaResult) (st1 : ServiceState) (en es : List Candidate),
      (searchLocal st.localDataset now term).total = 0 →
      searchFromCache st now term = (c, st1) → c.total = 0 →
      online term = .ok (en, es) → 0 < en.length + es.length →
        searchWithFallback st now online term =
          (⟨en, es, en.length + es.length, "online", now⟩,
            cacheResults { st1 with isOnline := true } now term
              ⟨en, es, en.length + es.length, "online", now⟩)) ∧
    (∀ (st : ServiceState) (now : Int)
        (online : String → Except Unit (List Candidate × List Candidate)) (term : String)
        (c : DbpediaResult) (st1 : ServiceState) (en es : List Candidate),
      (searchLocal st.localDataset now term).total = 0 →
      searchFromCache st now term = (c, st1) → c.total = 0 →
      online term = .ok (en, es) → en.length + es.length = 0 →
        searchWithFallback st now online term = (getEmptyResult now, st1)) ∧
    (∀ (st : ServiceState) (now : Int)
        (online : String → Except Unit (List Candidate × List Candidate)) (term : String)
        (c : DbpediaResult) (st1 : ServiceState),
      (searchLocal st.localDataset now term).total = 0 →
      searchFromCache st now term = (c, st1) → c.total = 0 →
      online term = .error () →
        searchWithFallback st now online term =
          (getEmptyResult now, { st1 with isOnline := false })) ∧
    (∀ now : Int, getEmptyResult now =
      { english := [], spanish := [], total := 0, source := "empty", timestamp := now }) := by
  refine ⟨?_, ?_, ?_, ?_, ?_, ?_, fun _ => rfl⟩
  · intro st now online term h
    have heq : searchWithFallback st now online term =
        (searchLocal st.localDataset now term, st) := by
      simp only [searchWithFallback]
      rw [if_pos h]
    exact ⟨heq, by rw [heq]; exact searchLocal_source_of_pos h⟩
  · intro st now online term r st1 h0 hexact hr
    have hcache := searchFromCache_exact_hit hexact hr
    simp only [searchWithFallback]
    rw [if_neg (by rw [h0]; exact lt_irrefl 0), hcache]
    have hr' : 0 < ({ r with source := "cache-exact" } : DbpediaResult).total := hr
    show (if 0 < ({ r with source := "cache-exact" } : DbpediaResult).total
      then (({ r with source := "cache-exact" } : DbpediaResult), st1)
      else _) = _
    rw [if_pos hr']
  · intro st now online term e st1 s st2 h0 hexact he hsim hs
    have hcache : searchFromCache st now term = ({ s with source := "cache-fuzzy" }, st2) :=
      (searchFromCache_to_fuzzy hexact he).trans (searchFromCacheFuzzy_hit hsim hs)
    simp only [searchWithFallback]
    rw [if_neg (by rw [h0]; exact lt_irrefl 0), hcache]
    have hs' : 0 < ({ s with source := "cache-fuzzy" } : DbpediaResult).total := hs
    show (if 0 < ({ s with source := "cache-fuzzy" } : DbpediaResult).total
      then (({ s with source := "cache-fuzzy" } : DbpediaResult), st2)
      else _) = _
    rw [if_pos hs']
  · intro st now online term c st1 en es h0 hcache hc0 honline hlen
    simp only [searchWithFallback]
    rw [if_neg (by rw [h0]; exact lt_irrefl 0), hcache]
    show (if 0 < c.total then (c, st1)
      else match online term with
        | .ok (en, es) =>
          if 0 < en.length + es.length then
            (⟨en, es, en.length + es.length, "online", now⟩,
              cacheResults { st1 with isOnline := true } now term
                ⟨en, es, en.length + es.length, "online", now⟩)
          else (getEmptyResult now, st1)
        | .error _ => (getEmptyResult now, { st1 with isOnline := false })) = _
    rw [if_neg (by rw [hc0]; exact lt_irrefl 0), honline]
    show (if 0 < en.length + es.length then _ else _) = _
    rw [if_pos hlen]
  · intro st now online term c st1 en es h0 hcache hc0 honline hlen
    simp only [searchWithFallback]
    rw [if_neg (by rw [h0]; exact lt_irrefl 0), hcache]
    show (if 0 < c.total then (c, st1)
      else match online term with
        | .ok (en, es) =>
          if 0 < en.length + es.length then
            (⟨en, es, en.length + es.length, "online", now⟩,
              cacheResults { st1 with isOnline := true } now term
                ⟨en, es, en.length + es.length, "online", now⟩)
          else (getEmptyResult now, st1)
        | .error _ => (getEmptyResult now, { st1 with isOnline := false })) = _
    rw [if_neg (by rw [hc0]; exact lt_irrefl 0), honline]
    show (if 0 < en.length + es.length then _ else _) = _
    rw [if_neg (by rw [hlen]; exact lt_irrefl 0)]
  · intro st now online term c st1 h0 hcache hc0 honline
    simp only [searchWithFallback]
    rw [if_neg (by rw [h0]; exact lt_irrefl 0), hcache]
    show (if 0 < c.total then (c, st1)
      else match online term with
        | .ok (en, es) =>
          if 0 < en.length + es.length then
            (⟨en, es, en.length + es.length, "online", now⟩,
              cacheResults { st1 with isOnline := true } now term
                ⟨en, es, en.length + es.length, "online", now⟩)
          else (getEmptyResult now, st1)
        | .error _ => (getEmptyResult now, { st1 with isOnline := false })) = _
    rw [if_neg (by rw [hc0]; exact lt_irrefl 0), honline]

/-- Witness for C4: one concrete run per stage of the fallback chain. -/
theorem c4_witness :
    (searchWithFallback stW1 100 (fun _ => .error ()) "roulette").1.source = "local-dataset" ∧
    (searchWithFallback stW2 100 (fun _ => .error ()) "roulette").1.source = "cache-exact" ∧
    (searchWithFallback stW3 100 (fun _ => .error ()) "roulette").1.source = "cache-fuzzy" ∧
    (searchWithFallback stW4 100 (fun _ => .ok ([candW], [])) "roulette").1.source = "online" ∧
    (searchWithFallback stW4 100 (fun _ => .ok ([], [])) "roulette").1 = getEmptyResult 100 ∧
    (searchWithFallback stW4 100 (fun _ => .error ()) "roulette").1 = getEmptyResult 100 := by
  refine ⟨?_, ?_, ?_, ?_, ?_, ?_⟩
  · exact (c4_fallback_priority.1 stW1 100 (fun _ => .error ()) "roulette" (by
      norm_num +decide [searchLocal, calculateLocalRelevance, entryW1, stW1, jsTrim, jsToLower,
        List.filterMap_cons, List.filterMap_nil, propScore])).2
  · rw [c4_fallback_priority.2.1 stW2 100 (fun _ => .error ()) "roulette" resW stW2
      (by decide) (by decide) (by decide)]
  · rw [c4_fallback_priority.2.2.1 stW3 100 (fun _ => .error ()) "roulette" none stW3
      { english := [{ candFz with relevance := 10 }], spanish := [], total := 1,
        source := "cache-fuzzy", timestamp := 100 } stW3
      (by decide) (by decide) (Or.inl rfl)
      (by
        norm_num +decide [searchSimilarInCache, fuzzyScan, filterCachedResults, cacheFilterFn,
          calculateFuzzyRelevance, stW3, entryFz, candFz, jsToLower, jsEndsWith, jsIncludes,
          jsStartsWith, charsContains, List.insertionSort, List.orderedInsert, relGE])
      (by decide)]
  · rw [c4_fallback_priority.2.2.2.1 stW4 100 (fun _ => .ok ([candW], [])) "roulette"
      (getEmptyResult 100) stW4 [candW] []
      (by decide) (by decide) (by decide) rfl (by decide)]
  · rw [c4_fallback_priority.2.2.2.2.1 stW4 100 (fun _ => .ok ([], [])) "roulette"
      (getEmptyResult 100) stW4 [] []
      (by decide) (by decide) (by decide) rfl (by decide)]
  · rw [c4_fallback_priority.2.2.2.2.2.1 stW4 100 (fun _ => .error ()) "roulette"
      (getEmptyResult 100) stW4
      (by decide) (by decide) (by decide) rfl]

/-- Claim C6.  An exact-key cache entry with `now > expiry` is treated as a
miss and its file is deleted; an entry with `now ≤ expiry` is usable and its
cached results are returned with the state untouched. -/
theorem c6_cache_expiry_semantics
    (st : ServiceState) (now : Int) (term : String) (entry : CacheEntry)
    (hread : readFile st.cache (generateCacheKey term ++ ".json") =
      some (CacheFile.valid entry)) :
    (entry.expiry < now →
      getExactCacheResults st now term =
        (none, { st with cache := unlinkFile st.cache (generateCacheKey term ++ ".json") })) ∧
    (now ≤ entry.expiry → getExactCacheResults st now term = (some entry.results, st)) := by
  constructor
  · intro h
    simp only [getExactCacheResults, hread]
    rw [if_neg (not_le.mpr h)]
  · intro h
    simp only [getExactCacheResults, hread]
    rw [if_pos h]

/-- Witness for C6: an expired entry (expiry 99, now 100) is purged; a fresh
entry (expiry 200) is returned. -/
theorem c6_witness :
    getExactCacheResults
        { localDataset := none,
          cache := [("t.json", CacheFile.valid { entryExact with expiry := 99 })],
          isOnline := true } 100 "t" =
      (none, { localDataset := none, cache := [], isOnline := true }) ∧
    getExactCacheResults
        { localDataset := none,
          cache := [("t.json", CacheFile.valid entryExact)], isOnline := true } 100 "t" =
      (some resW,
        { localDataset := none,
          cache := [("t.json", CacheFile.valid entryExact)], isOnline := true }) := by
  constructor
  · rw [(c6_cache_expiry_semantics
      { localDataset := none,
        cache := [("t.json", CacheFile.valid { entryExact with expiry := 99 })],
        isOnline := true } 100 "t" { entryExact with expiry := 99 } (by decide)).1 (by decide)]
    decide
  · rw [(c6_cache_expiry_semantics
      { localDataset := none, cache := [("t.json", CacheFile.valid entryExact)],
        isOnline := true } 100 "t" entryExact (by decide)).2 (by decide)]
    rfl

/-- Claim C9, counterexample.  An unparseable file at the exact cache key: the
exact-key lookup treats it as a miss but does NOT delete it — the state is
returned unchanged, with the corrupt file still present — refuting the claim
that every cache-read path deletes the offending file. -/
theorem c9_counterexample :
    getExactCacheResults
        { localDataset := some [], cache := [("term.json", CacheFile.corrupt)],
          isOnline := true } 100 "term" =
      (none,
        { localDataset := some [], cache := [("term.json", CacheFile.corrupt)],
          isOnline := true }) := by
  decide

/-- Claim C9, amended.  A cache file whose contents fail to parse is treated
as a cache miss on every read path (the request never fails, the embedding
being total); the offending file is deleted by the fuzzy cache scan and by
the periodic sweep, but the exact-key lookup leaves it in place.  Stated as:
(1) an unparseable exact-key file yields a miss with the state unchanged;
(2) the fuzzy scan's surviving directory is exactly the original minus the
unparseable `.json` files; (3) the fuzzy scan's collected results are those
of the directory with the unparseable files already removed; (4) no
unparseable `.json` file survives the periodic sweep. -/
theorem c9_corruption_recovery_amended :
    (∀ (st : ServiceState) (now : Int) (term : String),
      readFile st.cache (generateCacheKey term ++ ".json") = some CacheFile.corrupt →
        getExactCacheResults st now term = (none, st)) ∧
    (∀ (now : Int) (term : String) (cache : List (String × CacheFile)),
      (fuzzyScan now term cache).2 =
        cache.filter (fun nf => !(jsEndsWith nf.1 ".json" && (nf.2 == CacheFile.corrupt)))) ∧
    (∀ (now : Int) (term : String) (cache : List (String × CacheFile)),
      (fuzzyScan now term cache).1 =
        (fuzzyScan now term (cache.filter
          (fun nf => !(jsEndsWith nf.1 ".json" && (nf.2 == CacheFile.corrupt))))).1) ∧
    (∀ (st : ServiceState) (now : Int) (nf : String × CacheFile),
      nf ∈ (cleanExpiredCache st now).cache →
        ¬(jsEndsWith nf.1 ".json" = true ∧ nf.2 = CacheFile.corrupt)) := by
  refine ⟨?_, ?_, ?_, ?_⟩
  · intro st now term h
    simp only [getExactCacheResults, h]
  · intro now term cache
    induction cache with
    | nil => rfl
    | cons nf rest ih =>
      obtain ⟨name, file⟩ := nf
      by_cases hj : jsEndsWith name ".json" = true
      · cases file with
        | corrupt => simp [fuzzyScan, hj, ih]
        | valid parsed =>
          by_cases he : now ≤ parsed.expiry <;> simp [fuzzyScan, hj, he, ih]
      · simp [fuzzyScan, hj, ih]
  · intro now term cache
    induction cache with
    | nil => rfl
    | cons nf rest ih =>
      obtain ⟨name, file⟩ := nf
      by_cases hj : jsEndsWith name ".json" = true
      · cases file with
        | corrupt => simp [fuzzyScan, hj, ih]
        | valid parsed =>
          by_cases he : now ≤ parsed.expiry <;> simp [fuzzyScan, hj, he, ih]
      · simp [fuzzyScan, hj, ih]
  · intro st now nf hnf hcon
    obtain ⟨hj, hc⟩ := hcon
    simp only [cleanExpiredCache] at hnf
    have hp := (List.mem_filter.mp hnf).2
    rw [hc] at hp
    simp [hj] at hp

/-- Witness for C9's amended statement: a corrupt exact-key file is a miss
and survives; the fuzzy scan drops a corrupt `.json` file but keeps a
non-`.json` one; the sweep removes a corrupt `.json` file. -/
theorem c9_witness :
    getExactCacheResults
        { localDataset := some [], cache := [("other.json", CacheFile.corrupt)],
          isOnline := true } 100 "other" =
      (none,
        { localDataset := some [], cache := [("other.json", CacheFile.corrupt)],
          isOnline := true }) ∧
    (fuzzyScan 100 "x" [("bad.json", CacheFile.corrupt), ("k.txt", CacheFile.corrupt)]).2 =
      [("k.txt", CacheFile.corrupt)] ∧
    ("bad.json", CacheFile.corrupt) ∉
      (cleanExpiredCache
        { localDataset := none, cache := [("bad.json", CacheFile.corrupt)], isOnline := true }
        100).cache := by
  refine ⟨?_, ?_, ?_⟩
  · exact c9_corruption_recovery_amended.1 _ 100 "other" (by decide)
  · rw [c9_corruption_recovery_amended.2.1 100 "x"
      [("bad.json", CacheFile.corrupt), ("k.txt", CacheFile.corrupt)]]
    decide
  · intro h
    exact c9_corruption_recovery_amended.2.2.2 _ 100 _ h ⟨by decide, rfl⟩

end LocalDbpediaService

/-! ## Claim about the NLP boundary -/

/-- Claim C5.  Both NLP services' `processQuery` never raise past their
boundary: whenever the try-block (`body`, holding every internal step) raises,
the returned value is the minimal fallback whose `normalized` field is the
lowercased original query, whose `language` is `"es"`, and whose `tokens` and
`searchTerms` are the singleton list holding the original query. -/
theorem c5_nlp_fallback (body : String → Except Unit NLPResult) (query : String) (e : Unit)
    (h : body query = .error e) :
    NLPServiceExtended.processQuery body query = NLPServiceExtended.fallbackResult query ∧
    (NLPServiceExtended.processQuery body query).normalized = jsToLower query ∧
    (NLPServiceExtended.processQuery body query).language = "es" ∧
    (NLPServiceExtended.processQuery body query).tokens = [query] ∧
    (NLPServiceExtended.processQuery body query).searchTerms = [query] ∧
    NLPService.processQuery body query = NLPService.fallbackResult query := by
  have h1 : NLPServiceExtended.processQuery body query =
      NLPServiceExtended.fallbackResult query := by
    unfold NLPServiceExtended.processQuery
    rw [h]
  have h2 : NLPService.processQuery body query = NLPService.fallbackResult query := by
    unfold NLPService.processQuery
    rw [h]
  refine ⟨h1, ?_, ?_, ?_, ?_, h2⟩ <;> rw [h1] <;> rfl

/-- Witness for C5 with a body that always throws. -/
theorem c5_witness :
    NLPServiceExtended.processQuery (fun _ => .error ()) "¿Cuánto paga la Ruleta?" =
      NLPServiceExtended.fallbackResult "¿Cuánto paga la Ruleta?" ∧
    (NLPServiceExtended.processQuery (fun _ => .error ()) "¿Cuánto paga la Ruleta?").language =
      "es" :=
  have h := c5_nlp_fallback (fun _ => .error ()) "¿Cuánto paga la Ruleta?" () rfl
  ⟨h.1, h.2.2.1⟩

/-! ## Claim about the ontology text search -/

namespace OntologyService

/-- Claim C10.  Every candidate returned by the ontology service's
`searchByText` has accumulated relevance strictly greater than 1 and a name
longer than 2 characters; in particular an accumulated subject whose only
match was a single descriptive-property literal hit (relevance exactly 1) is
never part of the returned list, even though it matched the search terms. -/
theorem c10_relevance_threshold
    (statements : List RdfStatement) (terms : List String) :
    (∀ r ∈ searchByText statements terms, 1 < r.relevance ∧ 2 < r.name.length) ∧
    (∀ e ∈ scanResults statements (terms.map jsToLower), e.relevance ≤ 1 →
      e ∉ searchByText statements terms) := by
  have hmain : ∀ r ∈ searchByText statements terms, 1 < r.relevance ∧ 2 < r.name.length := by
    intro r hr
    simp only [searchByText] at hr
    have h1 : r ∈ ((scanResults statements (terms.map jsToLower)).filter
        isRelevantForDisplay).insertionSort scanRelGE :=
      (List.take_sublist 10 _).subset hr
    have h2 : r ∈ (scanResults statements (terms.map jsToLower)).filter
        isRelevantForDisplay := (List.mem_insertionSort scanRelGE).mp h1
    have h3 := List.of_mem_filter h2
    simp only [isRelevantForDisplay, Bool.and_eq_true, decide_eq_true_eq] at h3
    exact ⟨h3.1.1, h3.2⟩
  refine ⟨hmain, ?_⟩
  intro e he hle hin
  exact absurd (hmain e hin).1 (not_lt.mpr hle)

/-- Witness for C10: a subject matched once through a descriptive-property
literal accumulates relevance exactly 1 and is excluded from the returned
list. -/
theorem c10_witness :
    ({ uri := "http://x#Juego", name := "Juego", properties := [], relevance := 1 } :
        ScanEntry) ∈
      scanResults
        [{ subject := "http://x#Juego", predicate := "http://x#descripcion",
           object := "juego de ruleta" }] (["ruleta"].map jsToLower) ∧
    ({ uri := "http://x#Juego", name := "Juego", properties := [], relevance := 1 } :
        ScanEntry) ∉
      searchByText
        [{ subject := "http://x#Juego", predicate := "http://x#descripcion",
           object := "juego de ruleta" }] ["ruleta"] := by
  constructor
  · decide
  · exact (c10_relevance_threshold
      [{ subject := "http://x#Juego", predicate := "http://x#descripcion",
         object := "juego de ruleta" }] ["ruleta"]).2 _ (by decide) (le_refl 1)

end OntologyService

end CasinoSearch
